import Mathlib

/-!
Verification of the performance-analysis toolkit: flamegraph sample
extraction and categorization (analyze_flamegraph.py,
scripts/analyze_flamegraph_simple.py, scripts/extract_flamegraph_hotspots.py),
log pattern counting (analyze_profiling.py), benchmark timing extraction and
run comparison (benchmarks/compare_results.py), and the live sampling loop
(scripts/profile_concurrent.py).

Strings are modelled as `List Char`; Python floats are modelled as exact
rationals (ℚ); Python ints as ℕ/ℤ (Python integers are unbounded).  Code that
can raise (float division by zero, float() on a malformed literal) is
modelled with `Except String`/`Option` results.
-/

/-- The characters of a string literal, the form label/line text takes here. -/
def chars (s : String) : List Char := s.toList

/-- Python `needle in haystack` substring test on character lists. -/
def containsSub : List Char → List Char → Bool
  | [], needle => needle.isEmpty
  | c :: t, needle => needle.isPrefixOf (c :: t) || containsSub t needle

/-- Python `str.lower()` (ASCII case folding; every keyword in the scripts is
ASCII). -/
def toLowerL (s : List Char) : List Char := s.map Char.toLower

/-! ## Subsystem categorizers

`categorize` is scripts/analyze_flamegraph_simple.py lines 36-59,
`categorize_function` is scripts/extract_flamegraph_hotspots.py lines 61-80,
`af_category` is the category chain inlined in analyze_flamegraph.py
lines 38-55 (inside `categorize_functions`).  Each is a chain of
first-match substring predicates ending in the catch-all. -/

/-- Categorizer of scripts/analyze_flamegraph_simple.py (`categorize`). -/
def categorize (func_name : List Char) : String :=
  if containsSub (toLowerL func_name) (chars "__pthread_cond_wait")
      || containsSub (toLowerL func_name) (chars "cond_wait") then "Lock Wait"
  else if containsSub (toLowerL func_name) (chars "pthread")
      || containsSub (toLowerL func_name) (chars "mutex")
      || containsSub (toLowerL func_name) (chars "lock") then "Synchronization"
  else if containsSub (toLowerL func_name) (chars "moka")
      || containsSub (toLowerL func_name) (chars "cache")
      || containsSub (toLowerL func_name) (chars "evict") then "Cache"
  else if containsSub (toLowerL func_name) (chars "tokio::runtime::task")
      || containsSub (toLowerL func_name) (chars "run_task")
      || containsSub (toLowerL func_name) (chars "poll") then "Async/Task"
  else if containsSub (toLowerL func_name) (chars "spawn")
      || containsSub (toLowerL func_name) (chars "blocking") then "Task Spawning"
  else if containsSub (toLowerL func_name) (chars "encrypt")
      || containsSub (toLowerL func_name) (chars "decrypt")
      || containsSub (toLowerL func_name) (chars "gcm")
      || containsSub (toLowerL func_name) (chars "siv") then "Encryption"
  else if containsSub (toLowerL func_name) (chars "write")
      && containsSub (toLowerL func_name) (chars "operations") then "Write Operations"
  else if containsSub (toLowerL func_name) (chars "read")
      && containsSub (toLowerL func_name) (chars "operations") then "Read Operations"
  else if containsSub (toLowerL func_name) (chars "getattr")
      || containsSub (toLowerL func_name) (chars "lookup")
      || containsSub (toLowerL func_name) (chars "stat") then "Metadata Ops"
  else "Other"

/-- Categorizer of scripts/extract_flamegraph_hotspots.py
(`categorize_function`); the `any(x in name_lower for x in [...])` rows are
spelled out as disjunctions. -/
def categorize_function (func_name : List Char) : String :=
  if containsSub (toLowerL func_name) (chars "pthread")
      || containsSub (toLowerL func_name) (chars "cond_wait")
      || containsSub (toLowerL func_name) (chars "wait")
      || containsSub (toLowerL func_name) (chars "lock")
      || containsSub (toLowerL func_name) (chars "mutex")
      || containsSub (toLowerL func_name) (chars "futex") then "Lock/Sync"
  else if containsSub (toLowerL func_name) (chars "moka")
      || containsSub (toLowerL func_name) (chars "cache")
      || containsSub (toLowerL func_name) (chars "evict")
      || containsSub (toLowerL func_name) (chars "insert") then "Cache"
  else if containsSub (toLowerL func_name) (chars "read")
      || containsSub (toLowerL func_name) (chars "write")
      || containsSub (toLowerL func_name) (chars "getattr")
      || containsSub (toLowerL func_name) (chars "lookup")
      || containsSub (toLowerL func_name) (chars "stat") then "FUSE Ops"
  else if containsSub (toLowerL func_name) (chars "encrypt")
      || containsSub (toLowerL func_name) (chars "decrypt")
      || containsSub (toLowerL func_name) (chars "aes")
      || containsSub (toLowerL func_name) (chars "gcm")
      || containsSub (toLowerL func_name) (chars "siv")
      || containsSub (toLowerL func_name) (chars "crypto") then "Crypto"
  else if containsSub (toLowerL func_name) (chars "tokio")
      || containsSub (toLowerL func_name) (chars "spawn")
      || containsSub (toLowerL func_name) (chars "task")
      || containsSub (toLowerL func_name) (chars "executor")
      || containsSub (toLowerL func_name) (chars "park") then "Async Runtime"
  else if containsSub (toLowerL func_name) (chars "dashmap")
      || containsSub (toLowerL func_name) (chars "dash")
      || containsSub (toLowerL func_name) (chars "hashmap")
      || containsSub (toLowerL func_name) (chars "map") then "Data Structure"
  else if containsSub (toLowerL func_name) (chars "arc")
      || containsSub (toLowerL func_name) (chars "clone")
      || containsSub (toLowerL func_name) (chars "drop") then "Memory"
  else "Other"

/-- Category chain of analyze_flamegraph.py `categorize_functions`
(lines 38-55).  The first two rows and rows five/six test the raw name
(case-sensitive in the source); the others test the lowered name. -/
def af_category (func : List Char) : String :=
  if containsSub func (chars "fuser::")
      || containsSub func (chars "fuse_") then "FUSE Layer"
  else if containsSub func (chars "oxcrypt_core::")
      || containsSub func (chars "oxcrypt_") then "Crypto Core"
  else if containsSub (toLowerL func) (chars "encrypt")
      || containsSub (toLowerL func) (chars "decrypt") then "Encryption/Decryption"
  else if containsSub (toLowerL func) (chars "aes")
      || containsSub (toLowerL func) (chars "gcm")
      || containsSub (toLowerL func) (chars "siv") then "AES Primitives"
  else if containsSub func (chars "tokio::")
      || containsSub (toLowerL func) (chars "async") then "Async Runtime"
  else if containsSub func (chars "std::io")
      || containsSub func (chars "::fs::") then "I/O Operations"
  else if containsSub (toLowerL func) (chars "dashmap")
      || containsSub (toLowerL func) (chars "cache") then "Caching"
  else if containsSub (toLowerL func) (chars "lock")
      || containsSub (toLowerL func) (chars "mutex") then "Synchronization"
  else "Other"

/-! ## Ordered-rule view of the categorizers (spec §4.3, §9)

The spec describes a categorizer as an ordered list of
`(predicate, categoryName)` pairs evaluated in sequence with a catch-all
default.  `firstMatchD` is that evaluation; the rule lists below transcribe
the taxonomy order of the two chains. -/

/-- Return the category of the first rule whose predicate matches, else the
default (the ordered-first-match evaluation of spec §4.3). -/
def firstMatchD : List ((List Char → Bool) × String) → List Char → String → String
  | [], _, d => d
  | r :: rs, x, d => if r.1 x then r.2 else firstMatchD rs x d

/-- The ordered taxonomy of scripts/analyze_flamegraph_simple.py, each
predicate over the lowered label. -/
def rulesSimple : List ((List Char → Bool) × String) :=
  [ (fun nl => containsSub nl (chars "__pthread_cond_wait")
      || containsSub nl (chars "cond_wait"), "Lock Wait"),
    (fun nl => containsSub nl (chars "pthread") || containsSub nl (chars "mutex")
      || containsSub nl (chars "lock"), "Synchronization"),
    (fun nl => containsSub nl (chars "moka") || containsSub nl (chars "cache")
      || containsSub nl (chars "evict"), "Cache"),
    (fun nl => containsSub nl (chars "tokio::runtime::task")
      || containsSub nl (chars "run_task") || containsSub nl (chars "poll"), "Async/Task"),
    (fun nl => containsSub nl (chars "spawn")
      || containsSub nl (chars "blocking"), "Task Spawning"),
    (fun nl => containsSub nl (chars "encrypt") || containsSub nl (chars "decrypt")
      || containsSub nl (chars "gcm") || containsSub nl (chars "siv"), "Encryption"),
    (fun nl => containsSub nl (chars "write")
      && containsSub nl (chars "operations"), "Write Operations"),
    (fun nl => containsSub nl (chars "read")
      && containsSub nl (chars "operations"), "Read Operations"),
    (fun nl => containsSub nl (chars "getattr") || containsSub nl (chars "lookup")
      || containsSub nl (chars "stat"), "Metadata Ops") ]

/-- The ordered taxonomy of scripts/extract_flamegraph_hotspots.py, each
predicate over the lowered label. -/
def rulesExtract : List ((List Char → Bool) × String) :=
  [ (fun nl => containsSub nl (chars "pthread") || containsSub nl (chars "cond_wait")
      || containsSub nl (chars "wait") || containsSub nl (chars "lock")
      || containsSub nl (chars "mutex") || containsSub nl (chars "futex"), "Lock/Sync"),
    (fun nl => containsSub nl (chars "moka") || containsSub nl (chars "cache")
      || containsSub nl (chars "evict") || containsSub nl (chars "insert"), "Cache"),
    (fun nl => containsSub nl (chars "read") || containsSub nl (chars "write")
      || containsSub nl (chars "getattr") || containsSub nl (chars "lookup")
      || containsSub nl (chars "stat"), "FUSE Ops"),
    (fun nl => containsSub nl (chars "encrypt") || containsSub nl (chars "decrypt")
      || containsSub nl (chars "aes") || containsSub nl (chars "gcm")
      || containsSub nl (chars "siv") || containsSub nl (chars "crypto"), "Crypto"),
    (fun nl => containsSub nl (chars "tokio") || containsSub nl (chars "spawn")
      || containsSub nl (chars "task") || containsSub nl (chars "executor")
      || containsSub nl (chars "park"), "Async Runtime"),
    (fun nl => containsSub nl (chars "dashmap") || containsSub nl (chars "dash")
      || containsSub nl (chars "hashmap") || containsSub nl (chars "map"), "Data Structure"),
    (fun nl => containsSub nl (chars "arc") || containsSub nl (chars "clone")
      || containsSub nl (chars "drop"), "Memory") ]

/-- C3: for every label string each categorizer returns exactly one category:
the category of the first predicate that matches in its fixed ordered rule
list, the catch-all "Other" when none matches.  `firstMatchD` evaluates the
ordered list and stops at the first match, so a label matching two rules
resolves to the earlier one; both categorizers are plain functions of the
label, hence deterministic on repeated calls. -/
theorem C3_first_match_categorizer (func_name : List Char) :
    categorize func_name = firstMatchD rulesSimple (toLowerL func_name) "Other"
    ∧ categorize_function func_name
      = firstMatchD rulesExtract (toLowerL func_name) "Other" := by
  constructor
  · simp only [categorize, rulesSimple, firstMatchD]
  · simp only [categorize_function, rulesExtract, firstMatchD]

/-! ## Sample records and per-category aggregation

`AFEntry` is one `(function_name, samples, percentage)` tuple of
analyze_flamegraph.py (`samples = float(...)`); `Hotspot` is one record of
scripts/analyze_flamegraph_simple.py (`samples = int(...)`).
The `defaultdict` accumulation is modelled as an insertion-ordered
association list: `bucketAdd` adds a value into the bucket of a key,
creating the bucket at the end when the key is new. -/

/-- One extracted sample of analyze_flamegraph.py. -/
structure AFEntry where
  name : List Char
  samples : ℚ
  pct : ℚ

/-- One extracted sample of scripts/analyze_flamegraph_simple.py. -/
structure Hotspot where
  name : List Char
  samples : ℕ
  percentage : ℚ
deriving DecidableEq

/-- Add `v` into the bucket of key `c`, combining with `comb` when the key
exists and appending a new bucket otherwise (Python `defaultdict` update in
insertion order). -/
def bucketAdd {α : Type} (comb : α → α → α) : List (String × α) → String → α → List (String × α)
  | [], c, v => [(c, v)]
  | (c0, v0) :: t, c, v =>
    if c0 = c then (c0, comb v0 v) :: t else (c0, v0) :: bucketAdd comb t c v

/-- analyze_flamegraph.py `categorize_functions` (lines 32-60): every entry
adds its samples to its category bucket and is appended to the bucket's
member list. -/
def categorize_functions (fs : List AFEntry) : List (String × ℚ × List AFEntry) :=
  fs.foldl
    (fun acc e =>
      bucketAdd (fun a b => (a.1 + b.1, a.2 ++ b.2)) acc (af_category e.name) (e.samples, [e]))
    []

/-- scripts/analyze_flamegraph_simple.py `main` lines 97-100: the
`defaultdict(int)` accumulation `categories[categorize(name)] += samples`. -/
def simple_categories (hs : List Hotspot) : List (String × ℕ) :=
  hs.foldl (fun acc h => bucketAdd (· + ·) acc (categorize h.name) h.samples) []

/-- Total sample count of analyze_flamegraph.py `print_analysis` line 81. -/
def totalAF (fs : List AFEntry) : ℚ := (fs.map (·.samples)).sum

/-- Total sample count of scripts/analyze_flamegraph_simple.py line 74. -/
def totalSimple (hs : List Hotspot) : ℕ := (hs.map (·.samples)).sum

/-- One bucket update moves exactly the added value into the measured sum. -/
theorem sum_bucketAdd {α M : Type} [AddCommMonoid M] (π : α → M) (comb : α → α → α)
    (hc : ∀ a b, π (comb a b) = π a + π b) :
    ∀ (l : List (String × α)) (c : String) (v : α),
      ((bucketAdd comb l c v).map fun p => π p.2).sum
        = ((l.map fun p => π p.2).sum) + π v := by
  intro l
  induction l with
  | nil => intro c v; simp [bucketAdd]
  | cons hd tl ih =>
    intro c v
    obtain ⟨c0, v0⟩ := hd
    by_cases h : c0 = c
    · simp [bucketAdd, h, hc, add_assoc, add_comm, add_left_comm]
    · simp [bucketAdd, h, ih, add_assoc]

/-- Folding bucket updates over a list adds the list's measured values to
the accumulator's measured sum. -/
theorem sum_foldl_bucketAdd {α M β : Type} [AddCommMonoid M] (π : α → M) (comb : α → α → α)
    (hc : ∀ a b, π (comb a b) = π a + π b) (key : β → String) (val : β → α) :
    ∀ (l : List β) (acc : List (String × α)),
      (((l.foldl (fun a e => bucketAdd comb a (key e) (val e)) acc)).map fun p => π p.2).sum
        = ((acc.map fun p => π p.2).sum) + (l.map fun e => π (val e)).sum := by
  intro l
  induction l with
  | nil => intro acc; simp
  | cons e t ih =>
    intro acc
    simp only [List.foldl_cons, List.map_cons, List.sum_cons]
    rw [ih, sum_bucketAdd π comb hc, add_assoc]

/-- C1: for artifacts with positive total sample count, the per-category
sample totals produced by the categorizing aggregation sum to exactly the
grand total: each sample lands in exactly one category bucket, none dropped
or double-counted.  Stated for both cited aggregators:
analyze_flamegraph.py `categorize_functions` (float samples, modelled in ℚ)
and analyze_flamegraph_simple.py `main` (int samples). -/
theorem C1_category_partition (fs : List AFEntry) (hs : List Hotspot)
    (hT : 0 < totalAF fs) (hT2 : 0 < totalSimple hs) :
    ((categorize_functions fs).map fun p => p.2.1).sum = totalAF fs
    ∧ ((simple_categories hs).map fun p => p.2).sum = totalSimple hs := by
  constructor
  · have h := sum_foldl_bucketAdd (fun a : ℚ × List AFEntry => a.1)
      (fun a b => (a.1 + b.1, a.2 ++ b.2)) (fun a b => rfl)
      (fun e : AFEntry => af_category e.name) (fun e => (e.samples, [e])) fs []
    simpa [categorize_functions, totalAF] using h
  · have h := sum_foldl_bucketAdd (fun a : ℕ => a) (· + ·) (fun a b => rfl)
      (fun h : Hotspot => categorize h.name) (fun h => h.samples) hs []
    simpa [simple_categories, totalSimple] using h

/-- C1 witness: the partition sum at a concrete pair of artifacts with
positive totals. -/
theorem C1_category_partition_witness :
    ((categorize_functions
        [⟨chars "oxcrypt_core::encrypt", 3, 1⟩, ⟨chars "memcpy", 2, 1⟩]).map
          fun p => p.2.1).sum
      = totalAF [⟨chars "oxcrypt_core::encrypt", 3, 1⟩, ⟨chars "memcpy", 2, 1⟩]
    ∧ ((simple_categories [⟨chars "moka::get", 4, 2⟩]).map fun p => p.2).sum
      = totalSimple [⟨chars "moka::get", 4, 2⟩] :=
  C1_category_partition
    [⟨chars "oxcrypt_core::encrypt", 3, 1⟩, ⟨chars "memcpy", 2, 1⟩]
    [⟨chars "moka::get", 4, 2⟩] (by norm_num [totalAF]) (by norm_num [totalSimple])

/-! ## Log pattern scanner (analyze_profiling.py lines 75-111)

`countLine` is the body of the per-line loop of `analyze_log_patterns`: nine
independent `if` statements, each incrementing one counter.  Note from the
source: the `getattr` test is on the raw line (case-sensitive) while `stat`
and the rest test `line.lower()`, and no statement ever increments
`cache_lookups`. -/

/-- The counter dictionary initialised at the top of `analyze_log_patterns`. -/
structure LogPatterns where
  stat_calls : ℕ
  lookup_calls : ℕ
  read_calls : ℕ
  write_calls : ℕ
  mkdir_calls : ℕ
  unlink_calls : ℕ
  cache_lookups : ℕ
  cache_hits : ℕ
  cache_misses : ℕ
deriving DecidableEq

/-- Line 92-93 of the source: `if 'getattr' in line or 'stat' in
line.lower()` — note the raw (case-sensitive) test on `getattr`. -/
def stepStat (line : List Char) (p : LogPatterns) : LogPatterns :=
  if containsSub line (chars "getattr") || containsSub (toLowerL line) (chars "stat")
  then { p with stat_calls := p.stat_calls + 1 } else p

/-- Line 94-95 of the source. -/
def stepLookup (line : List Char) (p : LogPatterns) : LogPatterns :=
  if containsSub (toLowerL line) (chars "lookup")
  then { p with lookup_calls := p.lookup_calls + 1 } else p

/-- Line 96-97 of the source. -/
def stepRead (line : List Char) (p : LogPatterns) : LogPatterns :=
  if containsSub (toLowerL line) (chars "read")
  then { p with read_calls := p.read_calls + 1 } else p

/-- Line 98-99 of the source. -/
def stepWrite (line : List Char) (p : LogPatterns) : LogPatterns :=
  if containsSub (toLowerL line) (chars "write")
  then { p with write_calls := p.write_calls + 1 } else p

/-- Line 100-101 of the source. -/
def stepMkdir (line : List Char) (p : LogPatterns) : LogPatterns :=
  if containsSub (toLowerL line) (chars "mkdir")
  then { p with mkdir_calls := p.mkdir_calls + 1 } else p

/-- Line 102-103 of the source. -/
def stepUnlink (line : List Char) (p : LogPatterns) : LogPatterns :=
  if containsSub (toLowerL line) (chars "unlink")
  then { p with unlink_calls := p.unlink_calls + 1 } else p

/-- Line 104-105 of the source. -/
def stepCacheHit (line : List Char) (p : LogPatterns) : LogPatterns :=
  if containsSub (toLowerL line) (chars "cache hit")
  then { p with cache_hits := p.cache_hits + 1 } else p

/-- Line 106-107 of the source. -/
def stepCacheMiss (line : List Char) (p : LogPatterns) : LogPatterns :=
  if containsSub (toLowerL line) (chars "cache miss")
  then { p with cache_misses := p.cache_misses + 1 } else p

/-- One line of the log scan: the sequence of independent `if` statements of
analyze_profiling.py lines 92-107, in source order. -/
def countLine (p : LogPatterns) (line : List Char) : LogPatterns :=
  stepCacheMiss line (stepCacheHit line (stepUnlink line (stepMkdir line
    (stepWrite line (stepRead line (stepLookup line (stepStat line p)))))))

/-- analyze_profiling.py `analyze_log_patterns`: fold the per-line scan over
the log's lines starting from the all-zero counters. -/
def analyze_log_patterns (lines : List (List Char)) : LogPatterns :=
  lines.foldl countLine ⟨0, 0, 0, 0, 0, 0, 0, 0, 0⟩

set_option maxHeartbeats 1600000 in
/-- The per-line scan written as one record of conditional increments. -/
theorem countLine_eq (p : LogPatterns) (line : List Char) :
    countLine p line =
      { stat_calls := p.stat_calls + (if containsSub line (chars "getattr")
          || containsSub (toLowerL line) (chars "stat") then 1 else 0)
        lookup_calls := p.lookup_calls
          + (if containsSub (toLowerL line) (chars "lookup") then 1 else 0)
        read_calls := p.read_calls
          + (if containsSub (toLowerL line) (chars "read") then 1 else 0)
        write_calls := p.write_calls
          + (if containsSub (toLowerL line) (chars "write") then 1 else 0)
        mkdir_calls := p.mkdir_calls
          + (if containsSub (toLowerL line) (chars "mkdir") then 1 else 0)
        unlink_calls := p.unlink_calls
          + (if containsSub (toLowerL line) (chars "unlink") then 1 else 0)
        cache_lookups := p.cache_lookups
        cache_hits := p.cache_hits
          + (if containsSub (toLowerL line) (chars "cache hit") then 1 else 0)
        cache_misses := p.cache_misses
          + (if containsSub (toLowerL line) (chars "cache miss") then 1 else 0) } := by
  simp only [countLine, stepStat, stepLookup, stepRead, stepWrite, stepMkdir,
    stepUnlink, stepCacheHit, stepCacheMiss,
    apply_ite LogPatterns.stat_calls, apply_ite LogPatterns.lookup_calls,
    apply_ite LogPatterns.read_calls, apply_ite LogPatterns.write_calls,
    apply_ite LogPatterns.mkdir_calls, apply_ite LogPatterns.unlink_calls,
    apply_ite LogPatterns.cache_lookups, apply_ite LogPatterns.cache_hits,
    apply_ite LogPatterns.cache_misses, ite_self]
  split_ifs <;> rfl

/-- The fold of the per-line scan adds per-class match counts to the
accumulator. -/
theorem analyze_foldl_counts (lines : List (List Char)) :
    ∀ p : LogPatterns,
      lines.foldl countLine p =
        { stat_calls := p.stat_calls + lines.countP (fun l => containsSub l (chars "getattr")
            || containsSub (toLowerL l) (chars "stat"))
          lookup_calls := p.lookup_calls
            + lines.countP (fun l => containsSub (toLowerL l) (chars "lookup"))
          read_calls := p.read_calls
            + lines.countP (fun l => containsSub (toLowerL l) (chars "read"))
          write_calls := p.write_calls
            + lines.countP (fun l => containsSub (toLowerL l) (chars "write"))
          mkdir_calls := p.mkdir_calls
            + lines.countP (fun l => containsSub (toLowerL l) (chars "mkdir"))
          unlink_calls := p.unlink_calls
            + lines.countP (fun l => containsSub (toLowerL l) (chars "unlink"))
          cache_lookups := p.cache_lookups
          cache_hits := p.cache_hits
            + lines.countP (fun l => containsSub (toLowerL l) (chars "cache hit"))
          cache_misses := p.cache_misses
            + lines.countP (fun l => containsSub (toLowerL l) (chars "cache miss")) } := by
  induction lines with
  | nil =>
    intro p
    simp only [List.foldl_nil, List.countP_nil, Nat.add_zero]
  | cons l ls ih =>
    intro p
    rw [List.foldl_cons, ih (countLine p l), countLine_eq]
    simp only [List.countP_cons, LogPatterns.mk.injEq]
    refine ⟨?_, ?_, ?_, ?_, ?_, ?_, trivial, ?_, ?_⟩ <;> omega

/-- C7 amended: each line of the scan increments, independently, every
counter whose keyword matches it — `stat_calls` when the line contains
`getattr` case-sensitively or `stat` case-insensitively, and the lookup,
read, write, mkdir, unlink, `cache hit` and `cache miss` counters on a
case-insensitive substring match — so one line can increment several
counters; the `cache_lookups` counter is initialised but incremented by no
line. -/
theorem C7_scan_counts (lines : List (List Char)) :
    analyze_log_patterns lines =
      { stat_calls := lines.countP (fun l => containsSub l (chars "getattr")
          || containsSub (toLowerL l) (chars "stat"))
        lookup_calls := lines.countP (fun l => containsSub (toLowerL l) (chars "lookup"))
        read_calls := lines.countP (fun l => containsSub (toLowerL l) (chars "read"))
        write_calls := lines.countP (fun l => containsSub (toLowerL l) (chars "write"))
        mkdir_calls := lines.countP (fun l => containsSub (toLowerL l) (chars "mkdir"))
        unlink_calls := lines.countP (fun l => containsSub (toLowerL l) (chars "unlink"))
        cache_lookups := 0
        cache_hits := lines.countP (fun l => containsSub (toLowerL l) (chars "cache hit"))
        cache_misses := lines.countP (fun l => containsSub (toLowerL l) (chars "cache miss")) } := by
  have h := analyze_foldl_counts lines ⟨0, 0, 0, 0, 0, 0, 0, 0, 0⟩
  simpa [analyze_log_patterns] using h

/-- C7 counterexample: the log line "GETATTR" case-insensitively matches the
stat/getattr keyword class, yet the scan leaves `stat_calls` at 0 — the
source tests `'getattr' in line` on the raw line, so the claimed
case-insensitive matching fails for this class. -/
theorem C7_counterexample :
    containsSub (toLowerL (chars "GETATTR")) (chars "getattr") = true
    ∧ (analyze_log_patterns [chars "GETATTR"]).stat_calls = 0 := by
  decide

/-! ## Live sampler (scripts/profile_concurrent.py)

`StatsSnapshot` is the dataclass of lines 20-34; `extract_snapshot` is
lines 70-90, consuming the JSON payload of the stats feed (modelled as a
record of optional numeric fields, with the nested cache object itself
optional — Python `stats.get(key, default)`).  `computeRates` is the rate
block of the polling loop, lines 137-143: it divides every counter delta by
`dt = current.timestamp - prev_snapshot.timestamp` with no guard, and float
division by zero raises in Python, modelled as `Except.error`. -/

/-- The `StatsSnapshot` dataclass (timestamps and latencies are floats,
counters ints). -/
structure StatsSnapshot where
  timestamp : ℚ
  total_reads : ℤ
  total_writes : ℤ
  total_metadata_ops : ℤ
  bytes_read : ℤ
  bytes_written : ℤ
  read_latency_avg_ms : ℚ
  write_latency_avg_ms : ℚ
  metadata_latency_avg_ms : ℚ
  cache_hits : ℤ
  cache_misses : ℤ
  cache_entries : ℤ
  errors : ℤ
deriving DecidableEq

/-- The nested cache object of the stats feed: each key may be absent. -/
structure CachePayload where
  hits : Option ℤ
  misses : Option ℤ
  entries : Option ℤ

/-- The JSON payload of the stats feed: each counter/gauge key may be
absent, as may the whole cache object. -/
structure StatsPayload where
  total_reads : Option ℤ
  total_writes : Option ℤ
  total_metadata_ops : Option ℤ
  bytes_read : Option ℤ
  bytes_written : Option ℤ
  read_latency_avg_ms : Option ℚ
  write_latency_avg_ms : Option ℚ
  metadata_latency_avg_ms : Option ℚ
  cache : Option CachePayload
  total_errors : Option ℤ

/-- The `{}` default of `stats.get('cache', {})`: a cache object with every
key absent. -/
def emptyCache : CachePayload := ⟨none, none, none⟩

/-- scripts/profile_concurrent.py `extract_snapshot` (lines 70-90): every
field is read with `.get(key, 0)` (or `0.0`), the cache counters through
`stats.get('cache', {}).get(key, 0)`; `now` stands for `time.time()`.  The
source wraps the construction in try/except returning None, but no `.get`
with a default can raise, so the result is always `some`. -/
def extract_snapshot (now : ℚ) (stats : StatsPayload) : Option StatsSnapshot :=
  some
    { timestamp := now
      total_reads := stats.total_reads.getD 0
      total_writes := stats.total_writes.getD 0
      total_metadata_ops := stats.total_metadata_ops.getD 0
      bytes_read := stats.bytes_read.getD 0
      bytes_written := stats.bytes_written.getD 0
      read_latency_avg_ms := stats.read_latency_avg_ms.getD 0
      write_latency_avg_ms := stats.write_latency_avg_ms.getD 0
      metadata_latency_avg_ms := stats.metadata_latency_avg_ms.getD 0
      cache_hits := ((stats.cache.getD emptyCache).hits).getD 0
      cache_misses := ((stats.cache.getD emptyCache).misses).getD 0
      cache_entries := ((stats.cache.getD emptyCache).entries).getD 0
      errors := stats.total_errors.getD 0 }

/-- The rate block of the polling loop (lines 137-143): with a previous
snapshot stored, compute `dt` and divide the reads/writes/metadata/bytes
deltas by it.  Python float division raises ZeroDivisionError when
`dt == 0`; there is no guard in the source. -/
def computeRates (prev cur : StatsSnapshot) : Except String (ℚ × ℚ × ℚ × ℚ) :=
  if cur.timestamp - prev.timestamp = 0 then Except.error "ZeroDivisionError"
  else Except.ok
    (((cur.total_reads - prev.total_reads : ℤ) : ℚ) / (cur.timestamp - prev.timestamp),
     ((cur.total_writes - prev.total_writes : ℤ) : ℚ) / (cur.timestamp - prev.timestamp),
     ((cur.total_metadata_ops - prev.total_metadata_ops : ℤ) : ℚ) / (cur.timestamp - prev.timestamp),
     ((cur.bytes_read - prev.bytes_read : ℤ) : ℚ) / (cur.timestamp - prev.timestamp))

/-- A concrete snapshot of the live feed at time `t` with `r` total reads. -/
def snapAt (t : ℚ) (r : ℤ) : StatsSnapshot :=
  ⟨t, r, 50, 30, 4096, 2048, 1, 1, 1, 10, 5, 7, 0⟩

/-- C2 evidence (code bug): when two successive successful polls carry the
same timestamp, the loop does not skip the rate computation — it divides
the counter deltas by the zero elapsed time and raises ZeroDivisionError
(first conjunct).  The second conjunct checks the sound path on the spec's
own example (t goes 0 to 2, reads 100 to 120, rate 10 reads/sec). -/
theorem C2_zero_elapsed_divides :
    computeRates (snapAt 100 100) (snapAt 100 100) = Except.error "ZeroDivisionError"
    ∧ computeRates (snapAt 0 100) (snapAt 2 120) = Except.ok (10, 0, 0, 0) := by
  constructor
  · simp [computeRates]
  · norm_num [computeRates, snapAt]

/-- C10: snapshot extraction is total on any payload — it always yields a
snapshot — and every counter or gauge key absent from the payload, the
whole nested cache object included, is defaulted to 0 in the snapshot. -/
theorem C10_absent_fields_default (now : ℚ) (stats : StatsPayload) :
    ∃ s, extract_snapshot now stats = some s
      ∧ (stats.total_reads = none → s.total_reads = 0)
      ∧ (stats.total_writes = none → s.total_writes = 0)
      ∧ (stats.total_metadata_ops = none → s.total_metadata_ops = 0)
      ∧ (stats.bytes_read = none → s.bytes_read = 0)
      ∧ (stats.bytes_written = none → s.bytes_written = 0)
      ∧ (stats.read_latency_avg_ms = none → s.read_latency_avg_ms = 0)
      ∧ (stats.write_latency_avg_ms = none → s.write_latency_avg_ms = 0)
      ∧ (stats.metadata_latency_avg_ms = none → s.metadata_latency_avg_ms = 0)
      ∧ (stats.total_errors = none → s.errors = 0)
      ∧ (stats.cache = none →
          s.cache_hits = 0 ∧ s.cache_misses = 0 ∧ s.cache_entries = 0) := by
  refine ⟨_, rfl, ?_, ?_, ?_, ?_, ?_, ?_, ?_, ?_, ?_, ?_⟩ <;>
    intro h <;> simp [h, emptyCache]

/-! ## Benchmark timing extraction (benchmarks/compare_results.py lines 5-42)

`extract_metrics` strips ANSI escape sequences and then searches the text
with the pattern

  Time.*?mean.*?(\d+\.\d+)\s*([a-z]+).*?(\d+\.\d+)\s*([a-z]+)

(lazy gaps, shortest first).  The search is modelled by listing every
candidate parse in the backtracking order of the regex engine — outermost
choice first, positions left to right — and taking the first.  As in the
source, the captured groups are text; `float()` turns them into numbers
afterwards (`pyFloatRaw`/`floatVal`, exact rationals). -/

/-- Python `\s` (ASCII whitespace; the benchmark text is ASCII). -/
def isSpaceC (c : Char) : Bool :=
  c = ' ' || c = '\t' || c = '\n' || c = '\r' || c = '\x0b' || c = '\x0c'

/-- The regex class `[a-z]`. -/
def isLowerC (c : Char) : Bool := 'a' ≤ c && c ≤ 'z'

/-- Value of a digit run. -/
def digitsToNat (ds : List Char) : ℕ :=
  ds.foldl (fun n c => 10 * n + (c.toNat - 48)) 0

/-- Python `float()` on the digits-and-dots text the numeric groups can
hold: integer part, fraction digits value and fraction length.  Accepts at
most one dot and at least one digit (`"1.2.3"` or `"."` raise ValueError,
hence `none`). -/
def pyFloatRaw (cs : List Char) : Option (ℕ × ℕ × ℕ) :=
  match cs.span Char.isDigit with
  | (ip, r) =>
    match r with
    | [] => if ip.isEmpty then none else some (digitsToNat ip, 0, 0)
    | '.' :: r2 =>
      match r2.span Char.isDigit with
      | (fp, r3) =>
        if r3.isEmpty then
          if ip.isEmpty && fp.isEmpty then none
          else some (digitsToNat ip, digitsToNat fp, fp.length)
        else none
    | _ => none

/-- The exact rational value of a parsed float. -/
def floatVal (v : ℕ × ℕ × ℕ) : ℚ := (v.1 : ℚ) + (v.2.1 : ℚ) / (10 : ℚ) ^ v.2.2

/-- Match `\d+\.\d+` at the head of the text (both digit runs greedy — no
shorter run can rescue a failed parse, since a digit never matches the
following dot, space or letter), returning the matched text and the rest. -/
def matchDecimal (cs : List Char) : Option (List Char × List Char) :=
  match cs.span Char.isDigit with
  | (d1, r1) =>
    if d1.isEmpty then none
    else
      match r1 with
      | '.' :: r2 =>
        match r2.span Char.isDigit with
        | (d2, r3) => if d2.isEmpty then none else some (d1 ++ '.' :: d2, r3)
      | _ => none

/-- If the text starts with one ANSI escape sequence of the pattern in the
source (ESC followed by one character of the 0x40-0x5A or 0x5C-0x5F range,
or ESC `[`, parameter bytes 0x30-0x3F, intermediate bytes 0x20-0x2F and a
final byte 0x40-0x7E), the rest after it. -/
def ansiSeq (cs : List Char) : Option (List Char) :=
  match cs with
  | '\x1b' :: '[' :: t =>
    match (t.dropWhile fun c => '0' ≤ c && c ≤ '?').dropWhile (fun c => ' ' ≤ c && c ≤ '/') with
    | c :: r => if '@' ≤ c && c ≤ '~' then some r else none
    | [] => none
  | '\x1b' :: c :: t =>
    if ('@' ≤ c && c ≤ 'Z') || ('\\' ≤ c && c ≤ '_') then some t else none
  | _ => none

/-- Remove every ANSI escape sequence, left to right (the `ansi_escape.sub`
call); the fuel is the text length, enough since every removal consumes at
least two characters. -/
def stripAnsiF : ℕ → List Char → List Char
  | 0, cs => cs
  | _ + 1, [] => []
  | n + 1, c :: t =>
    match ansiSeq (c :: t) with
    | some r => stripAnsiF n r
    | none => c :: stripAnsiF n t

/-- ANSI stripping of an input text. -/
def stripAnsi (cs : List Char) : List Char := stripAnsiF cs.length cs

/-- The suffixes following each occurrence of a literal, in occurrence
order: the candidates a lazy gap before that literal yields. -/
def suffixesAfter (lit : List Char) : List Char → List (List Char)
  | [] => if lit.isEmpty then [[]] else []
  | c :: t =>
    (if lit.isPrefixOf (c :: t) then [(c :: t).drop lit.length] else [])
      ++ suffixesAfter lit t

/-- Every parse of a lazy gap followed by `(\d+\.\d+)\s*([a-z]+)`, in
position order: matched number text, unit text and rest of each candidate. -/
def decimalUnitParses : List Char → List (List Char × List Char × List Char)
  | [] => []
  | c :: t =>
    (match matchDecimal (c :: t) with
     | some (v, rest) =>
       match (rest.dropWhile isSpaceC).span isLowerC with
       | (u, r3) => if u.isEmpty then [] else [(v, u, r3)]
     | none => []) ++ decimalUnitParses t

/-- The four captured groups of the first match of the timing pattern:
mean text, mean unit, sigma text, sigma unit. -/
def timingGroups (cs : List Char) : Option (List Char × List Char × List Char × List Char) :=
  ((suffixesAfter (chars "Time") cs).flatMap fun r1 =>
    (suffixesAfter (chars "mean") r1).flatMap fun r2 =>
      (decimalUnitParses r2).flatMap fun g1 =>
        (decimalUnitParses g1.2.2).map fun g2 => (g1.1, g1.2.1, g2.1, g2.2.1)).head?

/-- benchmarks/compare_results.py `extract_metrics` (lines 5-42): strip
ANSI codes, find the timing line, `float()` the two value groups, convert
the mean to milliseconds (`s` multiplies by 1000, `ms` stays, any other
unit fails) and the sigma likewise (an unrecognised sigma unit falls
through unconverted, as in the source). -/
def extract_metrics (content : List Char) : Option (ℚ × ℚ) :=
  match timingGroups (stripAnsi content) with
  | none => none
  | some (g1, mu, g3, su) =>
    match pyFloatRaw g1, pyFloatRaw g3 with
    | some mv, some sv =>
      if mu = chars "s" then
        some (floatVal mv * 1000,
          if su = chars "ms" then floatVal sv
          else if su = chars "s" then floatVal sv * 1000 else floatVal sv)
      else if mu = chars "ms" then
        some (floatVal mv,
          if su = chars "ms" then floatVal sv
          else if su = chars "s" then floatVal sv * 1000 else floatVal sv)
      else none
    | _, _ => none

/-- C5: timing extraction normalizes both values to milliseconds whatever
the source unit: the spec's example line with a mean in seconds and a sigma
in milliseconds yields meanMs = 5090.0 and sigmaMs = 11.71 exactly, and a
mirrored line with a mean in milliseconds and a sigma in seconds is
likewise normalized. -/
theorem C5_timing_normalized :
    extract_metrics (chars "Time (mean ± σ):  5.09 s ± 11.71 ms") = some (5090, 1171 / 100)
    ∧ extract_metrics (chars "Time (mean ± σ):  509.0 ms ± 0.02 s") = some (509, 20) := by
  constructor
  · have h1 : timingGroups (stripAnsi (chars "Time (mean ± σ):  5.09 s ± 11.71 ms"))
        = some (chars "5.09", chars "s", chars "11.71", chars "ms") := by decide
    have h2 : pyFloatRaw (chars "5.09") = some (5, 9, 2) := by decide
    have h3 : pyFloatRaw (chars "11.71") = some (11, 71, 2) := by decide
    have h4 : chars "s" ≠ chars "ms" := by decide
    simp only [extract_metrics, h1, h2, h3]
    norm_num [floatVal, h4]
  · have h1 : timingGroups (stripAnsi (chars "Time (mean ± σ):  509.0 ms ± 0.02 s"))
        = some (chars "509.0", chars "ms", chars "0.02", chars "s") := by decide
    have h2 : pyFloatRaw (chars "509.0") = some (509, 0, 1) := by decide
    have h3 : pyFloatRaw (chars "0.02") = some (0, 2, 2) := by decide
    have h4 : ¬ chars "ms" = chars "s" := by decide
    have h5 : ¬ chars "s" = chars "ms" := by decide
    simp only [extract_metrics, h1, h2, h3]
    norm_num [floatVal, h4, h5]

/-! ## Run comparator (benchmarks/compare_results.py lines 44-78)

The module-level loop walks the workload list; for each workload it extracts
baseline and candidate metrics and either prints a comparison (delta and
percentage) or the "Could not extract metrics" report.  `compare_results_loop`
folds that loop over the per-workload extraction results: the pair of
outcomes of `extract_metrics` on the two files.  Its value is the sequence
of per-workload reports already printed plus an aborted flag: Python's
unguarded float division `(baseline_mean - phase1_mean) / baseline_mean`
raises ZeroDivisionError when the baseline mean is 0.0, which aborts the
whole run on the spot (a tuple like `(0.0, s)` is truthy, so the `if
baseline and phase1` guard does not catch it). -/

/-- What the loop prints for one workload. -/
inductive WorkloadReport where
  | comparison (delta_ms delta_pct : ℚ) : WorkloadReport
  | could_not_extract : WorkloadReport
deriving DecidableEq

/-- The comparison loop over the extraction outcomes of the listed
workloads: the reports printed, and whether the run aborted with
ZeroDivisionError before reaching the remaining workloads. -/
def compare_results_loop :
    List (Option (ℚ × ℚ) × Option (ℚ × ℚ)) → List WorkloadReport × Bool
  | [] => ([], false)
  | (some b, some p) :: t =>
    if b.1 = 0 then ([], true)
    else
      match compare_results_loop t with
      | (rs, aborted) =>
        (WorkloadReport.comparison (b.1 - p.1) ((b.1 - p.1) / b.1 * 100) :: rs, aborted)
  | _ :: t =>
    match compare_results_loop t with
    | (rs, aborted) => (WorkloadReport.could_not_extract :: rs, aborted)

/-- C6: for a workload whose two extractions succeed (with the nonzero
baseline mean the percentage formula presupposes), the comparator reports
delta = baselineMean - candidateMean and deltaPct = delta / baselineMean *
100, and the sign convention is positive = improvement: the delta is
positive exactly when the candidate mean is below the baseline mean. -/
theorem C6_comparator_formulas (b c bs cs : ℚ) (hb : b ≠ 0) :
    compare_results_loop [(some (b, bs), some (c, cs))]
      = ([WorkloadReport.comparison (b - c) ((b - c) / b * 100)], false)
    ∧ (0 < b - c ↔ c < b) := by
  constructor
  · simp [compare_results_loop, hb]
  · constructor <;> intro h <;> linarith

/-- C6 witness: baseline 5090 ms, candidate 4500 ms give delta = 590 ms and
deltaPct = 5900/509, which is within 0.005 of +11.59 percent. -/
theorem C6_comparator_formulas_witness :
    compare_results_loop [(some ((5090 : ℚ), 1171 / 100), some ((4500 : ℚ), 1))]
      = ([WorkloadReport.comparison 590 (5900 / 509)], false)
    ∧ |(5900 : ℚ) / 509 - 1159 / 100| < 1 / 200 := by
  constructor
  · have h := (C6_comparator_formulas 5090 4500 (1171 / 100) 1 (by norm_num)).1
    rw [h]
    norm_num
  · rw [abs_sub_lt_iff]
    constructor <;> norm_num

/-- The report the loop prints for each workload when no division aborts
it: a comparison when both extractions succeed, the could-not-extract
report otherwise. -/
def expectedReports (ws : List (Option (ℚ × ℚ) × Option (ℚ × ℚ))) : List WorkloadReport :=
  ws.map fun w =>
    match w with
    | (some b, some p) => WorkloadReport.comparison (b.1 - p.1) ((b.1 - p.1) / b.1 * 100)
    | _ => WorkloadReport.could_not_extract

/-- C9 amended: when every successfully extracted baseline mean is nonzero,
a failed extraction on either side makes the loop report that workload as
could-not-extract instead of aborting, and every other workload still gets
its report — one report per workload, in order.  (The counterexample shows
the qualification is needed: a successfully extracted baseline mean of 0.0
aborts the run and the remaining workloads get nothing.) -/
theorem C9_partial_results (ws : List (Option (ℚ × ℚ) × Option (ℚ × ℚ)))
    (h : ∀ b p, (some b, some p) ∈ ws → b.1 ≠ 0) :
    compare_results_loop ws = (expectedReports ws, false) := by
  induction ws with
  | nil => rfl
  | cons w t ih =>
    have ht : ∀ b p, (some b, some p) ∈ t → b.1 ≠ 0 := by
      intro b p hm
      exact h b p (List.mem_cons_of_mem w hm)
    obtain ⟨wb, wp⟩ := w
    match wb, wp with
    | some b, some p =>
      have hb : b.1 ≠ 0 := h b p (List.mem_cons_self _ _)
      simp [compare_results_loop, hb, ih ht, expectedReports]
    | none, _ =>
      simp [compare_results_loop, ih ht, expectedReports]
    | some b, none =>
      simp [compare_results_loop, ih ht, expectedReports]

/-- A workload list with a failed extraction first, then a successful
extraction with baseline mean 0.0, then a fully successful workload. -/
def c9_input : List (Option (ℚ × ℚ) × Option (ℚ × ℚ)) :=
  [(none, some (1, 1)), (some (0, 0), some (1, 1)), (some (5090, 0), some (4500, 0))]

/-- C9 counterexample: on `c9_input` the loop reports the first workload as
could-not-extract, then aborts with ZeroDivisionError on the zero baseline
mean of the second — so the third workload, whose two extractions both
succeed, never gets its comparison, contradicting the claim that results
for every remaining such workload are still produced. -/
theorem C9_counterexample :
    compare_results_loop c9_input = ([WorkloadReport.could_not_extract], true) := by
  decide

/-- C9 witness: a concrete run with one failed and one successful workload
reports both, in order, without aborting. -/
theorem C9_partial_results_witness :
    compare_results_loop [(none, some (1, 1)), (some ((5090 : ℚ), 0), some ((4500 : ℚ), 0))]
      = ([WorkloadReport.could_not_extract, WorkloadReport.comparison 590 (5900 / 509)], false) := by
  have h := C9_partial_results
    [(none, some (1, 1)), (some ((5090 : ℚ), 0), some ((4500 : ℚ), 0))] ?hp
  case hp =>
    intro b p hm
    simp only [List.mem_cons, List.not_mem_nil, or_false, Prod.mk.injEq] at hm
    rcases hm with ⟨h1, _⟩ | ⟨h1, _⟩
    · exact absurd h1 (by simp)
    · have hb : b = (5090, 0) := Option.some_inj.mp h1
      rw [hb]
      norm_num
  rw [h]
  simp only [expectedReports, List.map_cons, List.map_nil]
  norm_num

/-! ## Flamegraph sample extractors

analyze_flamegraph.py `parse_flamegraph` (lines 9-30) runs `findall` with

  <title>([^<]+?)\s+\((\d+(?:\.\d+)?)\s+samples?,\s+([\d.]+)%\)</title>

then float()-converts the two numeric groups, silently dropping a record
whose conversion fails; the label group is used as captured — nothing
decodes HTML entities in this script.  scripts/analyze_flamegraph_simple.py
`extract_hotspots` (lines 10-34) runs `findall` with

  title>([^<]*?)\s*\((\d+) samples?,\s*([\d.]+)%\)

and then replaces `&lt;` `&gt;` `&amp;` in the label, in that order, before
building the record and sorting by samples descending.  Both scanners are
modelled character by character with the regex's lazy/greedy behaviour:
labels grow lazily (shortest first, retrying on failure of the rest), digit
and class runs are greedy (no shorter run can rescue a failure, since the
follow-up character classes are disjoint). -/

/-- Match `\d+(?:\.\d+)?` at the head of the text (greedy, the fraction
only when a digit follows the dot), returning the matched text and rest. -/
def matchNum (cs : List Char) : Option (List Char × List Char) :=
  match cs.span Char.isDigit with
  | (d1, r1) =>
    if d1.isEmpty then none
    else
      match r1 with
      | '.' :: r2 =>
        match r2.span Char.isDigit with
        | (d2, r3) => if d2.isEmpty then some (d1, '.' :: r2) else some (d1 ++ '.' :: d2, r3)
      | _ => some (d1, r1)

/-- Match the part of the analyze_flamegraph.py pattern after the label:
`\s+\((num)\s+samples?,\s+([\d.]+)%\)</title>`; returns samples text,
percentage text and the rest after the match. -/
def matchRest1 (cs : List Char) : Option (List Char × List Char × List Char) :=
  match cs.span isSpaceC with
  | (sp1, r1) =>
    if sp1.isEmpty then none
    else
      match r1 with
      | '(' :: r2 =>
        match matchNum r2 with
        | none => none
        | some (num, r3) =>
          match r3.span isSpaceC with
          | (sp2, r4) =>
            if sp2.isEmpty then none
            else if (chars "sample").isPrefixOf r4 then
              match (match r4.drop 6 with | 's' :: t => t | r5 => r5) with
              | ',' :: r7 =>
                match r7.span isSpaceC with
                | (sp3, r8) =>
                  if sp3.isEmpty then none
                  else
                    match r8.span (fun c => c.isDigit || c = '.') with
                    | (pc, r9) =>
                      if pc.isEmpty then none
                      else
                        match r9 with
                        | '%' :: ')' :: r10 =>
                          if (chars "</title>").isPrefixOf r10 then
                            some (num, pc, r10.drop 8)
                          else none
                        | _ => none
              | _ => none
            else none
      | _ => none

/-- The lazy nonempty label `([^<]+?)` of the analyze_flamegraph.py
pattern: grow the label one character at a time (never across `<`), trying
the rest of the pattern after each character. -/
def scanLabel1 : List Char → List Char → Option (List Char × List Char × List Char × List Char)
  | _, [] => none
  | revAcc, c :: t =>
    if c = '<' then none
    else
      match matchRest1 t with
      | some (num, pc, rest) => some ((c :: revAcc).reverse, num, pc, rest)
      | none => scanLabel1 (c :: revAcc) t

/-- `findall` for the analyze_flamegraph.py pattern: scan left to right,
emit each non-overlapping match (label, samples text, percentage text) and
continue after it; the fuel is the text length. -/
def findTitles1 : ℕ → List Char → List (List Char × List Char × List Char)
  | 0, _ => []
  | _ + 1, [] => []
  | n + 1, c :: t =>
    if (chars "<title>").isPrefixOf (c :: t) then
      match scanLabel1 [] ((c :: t).drop 7) with
      | some (lbl, num, pc, rest) => (lbl, num, pc) :: findTitles1 n rest
      | none => findTitles1 n t
    else findTitles1 n t

/-- analyze_flamegraph.py `parse_flamegraph`: the matches of the pattern,
with both numeric groups float()-converted; a record whose conversion
raises ValueError is skipped.  The label is used exactly as captured. -/
def parse_flamegraph (content : List Char) : List (List Char × ℚ × ℚ) :=
  (findTitles1 content.length content).filterMap fun m =>
    match pyFloatRaw m.2.1, pyFloatRaw m.2.2 with
    | some s, some p => some (m.1, floatVal s, floatVal p)
    | _, _ => none

/-- Match the part of the analyze_flamegraph_simple.py pattern after the
label: `\s*\((\d+) samples?,\s*([\d.]+)%\)`; returns the sample count, the
percentage text and the rest. -/
def matchRest2 (cs : List Char) : Option (ℕ × List Char × List Char) :=
  match cs.dropWhile isSpaceC with
  | '(' :: r2 =>
    match r2.span Char.isDigit with
    | (d, r3) =>
      if d.isEmpty then none
      else
        match r3 with
        | ' ' :: r4 =>
          if (chars "sample").isPrefixOf r4 then
            match (match r4.drop 6 with | 's' :: t => t | r5 => r5) with
            | ',' :: r7 =>
              match (r7.dropWhile isSpaceC).span (fun c => c.isDigit || c = '.') with
              | (pc, r9) =>
                if pc.isEmpty then none
                else
                  match r9 with
                  | '%' :: ')' :: r10 => some (digitsToNat d, pc, r10)
                  | _ => none
            | _ => none
          else none
        | _ => none
  | _ => none

/-- The lazy possibly-empty label `([^<]*?)` of the simple pattern: try the
rest of the pattern before consuming each character. -/
def scanLabel2 : List Char → List Char → Option (List Char × ℕ × List Char × List Char)
  | revAcc, [] =>
    match matchRest2 [] with
    | some (n, pc, rest) => some (revAcc.reverse, n, pc, rest)
    | none => none
  | revAcc, c :: t =>
    match matchRest2 (c :: t) with
    | some (n, pc, rest) => some (revAcc.reverse, n, pc, rest)
    | none => if c = '<' then none else scanLabel2 (c :: revAcc) t

/-- `findall` for the analyze_flamegraph_simple.py pattern. -/
def findTitles2 : ℕ → List Char → List (List Char × ℕ × List Char)
  | 0, _ => []
  | _ + 1, [] => []
  | n + 1, c :: t =>
    if (chars "title>").isPrefixOf (c :: t) then
      match scanLabel2 [] ((c :: t).drop 6) with
      | some (lbl, cnt, pc, rest) => (lbl, cnt, pc) :: findTitles2 n rest
      | none => findTitles2 n t
    else findTitles2 n t

/-- Python `str.replace`: replace every non-overlapping occurrence of a
nonempty pattern, left to right; the fuel is the text length. -/
def replaceSubF : ℕ → List Char → List Char → List Char → List Char
  | 0, cs, _, _ => cs
  | _ + 1, [], _, _ => []
  | n + 1, c :: t, pat, rep =>
    if !pat.isEmpty && pat.isPrefixOf (c :: t) then
      rep ++ replaceSubF n ((c :: t).drop pat.length) pat rep
    else c :: replaceSubF n t pat rep

/-- Replace every occurrence of `pat` by `rep`. -/
def replaceSub (cs pat rep : List Char) : List Char := replaceSubF cs.length cs pat rep

/-- The decode step of `extract_hotspots` line 24:
`.replace('&lt;', '<').replace('&gt;', '>').replace('&amp;', '&')`. -/
def decodeEntities (s : List Char) : List Char :=
  replaceSub (replaceSub (replaceSub s (chars "&lt;") (chars "<"))
    (chars "&gt;") (chars ">")) (chars "&amp;") (chars "&")

/-- Build the hotspot records of `extract_hotspots` from the raw matches:
decode the label, int() the count, float() the percentage — a float()
failure raises (no try/except in this function), aborting the extraction. -/
def hotspotsOfMatches : List (List Char × ℕ × List Char) → Except String (List Hotspot)
  | [] => Except.ok []
  | m :: t =>
    match pyFloatRaw m.2.2 with
    | none => Except.error "ValueError"
    | some p =>
      match hotspotsOfMatches t with
      | Except.ok hl => Except.ok (⟨decodeEntities m.1, m.2.1, floatVal p⟩ :: hl)
      | Except.error e => Except.error e

/-- scripts/analyze_flamegraph_simple.py `extract_hotspots` (lines 10-34):
match, decode, build records, then sort by samples descending (Python's
stable sort, modelled by a stable insertion sort). -/
def extract_hotspots (content : List Char) : Except String (List Hotspot) :=
  match hotspotsOfMatches (findTitles2 content.length content) with
  | Except.ok hl => Except.ok (hl.insertionSort fun a b => b.samples ≤ a.samples)
  | Except.error e => Except.error e

/-- Unfolding step for `hotspotsOfMatches` on a match whose percentage
parses, with the tail already built. -/
theorem hotspotsOfMatches_cons_some (lbl : List Char) (n : ℕ) (pc : List Char)
    (v : ℕ × ℕ × ℕ) (t : List (List Char × ℕ × List Char)) (hl : List Hotspot)
    (hv : pyFloatRaw pc = some v) (ht : hotspotsOfMatches t = Except.ok hl) :
    hotspotsOfMatches ((lbl, n, pc) :: t)
      = Except.ok (⟨decodeEntities lbl, n, floatVal v⟩ :: hl) := by
  simp [hotspotsOfMatches, hv, ht]

/-- Unfolding step for `extract_hotspots` when record building succeeds. -/
theorem extract_hotspots_ok (content : List Char) (hl : List Hotspot)
    (hh : hotspotsOfMatches (findTitles2 content.length content) = Except.ok hl) :
    extract_hotspots content
      = Except.ok (hl.insertionSort fun a b => b.samples ≤ a.samples) := by
  simp [extract_hotspots, hh]

/-- C8 counterexample: `parse_flamegraph` hands the captured label to
categorization and reporting exactly as matched — for an SVG whose title
holds the entity-encoded label `a&lt;b`, the extracted sample keeps
`a&lt;b`, though decoding would change it; the claim that every extractor
decodes `&lt;`/`&gt;`/`&amp;` before use fails on this script. -/
theorem C8_counterexample :
    parse_flamegraph (chars "<title>a&lt;b (3 samples, 1.0%)</title>")
      = [(chars "a&lt;b", 3, 1)]
    ∧ decodeEntities (chars "a&lt;b") ≠ chars "a&lt;b" := by
  constructor
  · have h : findTitles1 (chars "<title>a&lt;b (3 samples, 1.0%)</title>").length
        (chars "<title>a&lt;b (3 samples, 1.0%)</title>")
        = [(chars "a&lt;b", chars "3", chars "1.0")] := by decide
    have h2 : pyFloatRaw (chars "3") = some (3, 0, 0) := by decide
    have h3 : pyFloatRaw (chars "1.0") = some (1, 0, 1) := by decide
    simp only [parse_flamegraph, h, List.filterMap_cons, List.filterMap_nil, h2, h3]
    norm_num [floatVal]
  · decide

/-- Every record `hotspotsOfMatches` builds comes from one raw match: its
label is the decoded capture, its count the captured count, its percentage
the float() of the captured percentage text. -/
theorem hotspotsOfMatches_mem (ms : List (List Char × ℕ × List Char)) :
    ∀ l : List Hotspot, hotspotsOfMatches ms = Except.ok l →
      ∀ h ∈ l, ∃ m ∈ ms, ∃ v, pyFloatRaw m.2.2 = some v
        ∧ h = ⟨decodeEntities m.1, m.2.1, floatVal v⟩ := by
  induction ms with
  | nil =>
    intro l hl h hm
    simp only [hotspotsOfMatches, Except.ok.injEq] at hl
    subst hl
    simp at hm
  | cons m t ih =>
    intro l hl h hm
    simp only [hotspotsOfMatches] at hl
    split at hl
    · exact absurd hl (by simp)
    · rename_i v hp
      split at hl
      · rename_i hl2 ht
        simp only [Except.ok.injEq] at hl
        subst hl
        rcases List.mem_cons.mp hm with hh | hh
        · exact ⟨m, List.mem_cons_self m t, v, hp, hh⟩
        · obtain ⟨m2, hm2, v2, hp2, he⟩ := ih hl2 ht h hh
          exact ⟨m2, List.mem_cons_of_mem m hm2, v2, hp2, he⟩
      · exact absurd hl (by simp)

/-- C8 amended: the simple-script extractor decodes `&lt;`, `&gt;` and
`&amp;` (in that replacement order) in every label before categorization
and reporting — every hotspot it ever emits carries the decoded capture —
while `parse_flamegraph` in analyze_flamegraph.py performs no decoding:
every sample it emits carries a raw capture of its pattern, entities
included.  The last two conjuncts run both pipelines on concrete
entity-bearing artifacts, the simple script over all three entities. -/
theorem C8_entity_decoding :
    (∀ (content lbl : List Char) (s p : ℚ), (lbl, s, p) ∈ parse_flamegraph content →
      ∃ n pc, (lbl, n, pc) ∈ findTitles1 content.length content)
    ∧ (∀ (content : List Char) (hl : List Hotspot),
        extract_hotspots content = Except.ok hl →
        ∀ h ∈ hl, ∃ m ∈ findTitles2 content.length content, ∃ v,
          pyFloatRaw m.2.2 = some v ∧ h = ⟨decodeEntities m.1, m.2.1, floatVal v⟩)
    ∧ extract_hotspots (chars "title>a&lt;b&gt;c&amp;d (3 samples, 1.0%)")
      = Except.ok [⟨chars "a<b>c&d", 3, 1⟩]
    ∧ parse_flamegraph (chars "<title>x&gt;y (2 samples, 0.5%)</title>")
      = [(chars "x&gt;y", 2, 1 / 2)] := by
  refine ⟨?_, ?_, ?_, ?_⟩
  · intro content lbl s p hr
    simp only [parse_flamegraph, List.mem_filterMap] at hr
    obtain ⟨m, hm, hf⟩ := hr
    split at hf
    · rename_i v1 v2 h1 h2
      simp only [Option.some.injEq, Prod.mk.injEq] at hf
      obtain ⟨hlbl, _, _⟩ := hf
      refine ⟨m.2.1, m.2.2, ?_⟩
      rw [← hlbl]
      simpa using hm
    · exact absurd hf (by simp)
  · intro content hl hok h hm
    simp only [extract_hotspots] at hok
    split at hok
    · rename_i hl0 hh
      simp only [Except.ok.injEq] at hok
      subst hok
      have hmem : h ∈ hl0 := ((List.perm_insertionSort _ hl0).mem_iff).mp hm
      exact hotspotsOfMatches_mem _ hl0 hh h hmem
    · exact absurd hok (by simp)
  · have h : findTitles2 (chars "title>a&lt;b&gt;c&amp;d (3 samples, 1.0%)").length
        (chars "title>a&lt;b&gt;c&amp;d (3 samples, 1.0%)")
        = [(chars "a&lt;b&gt;c&amp;d", 3, chars "1.0")] := by decide
    have hv : pyFloatRaw (chars "1.0") = some (1, 0, 1) := by decide
    have hd : decodeEntities (chars "a&lt;b&gt;c&amp;d") = chars "a<b>c&d" := by decide
    have hr : hotspotsOfMatches [(chars "a&lt;b&gt;c&amp;d", 3, chars "1.0")]
        = Except.ok [⟨chars "a<b>c&d", 3, floatVal (1, 0, 1)⟩] := by
      rw [hotspotsOfMatches_cons_some (chars "a&lt;b&gt;c&amp;d") 3 (chars "1.0") (1, 0, 1)
        [] [] hv rfl, hd]
    have hx := extract_hotspots_ok (chars "title>a&lt;b&gt;c&amp;d (3 samples, 1.0%)")
      [⟨chars "a<b>c&d", 3, floatVal (1, 0, 1)⟩] (by rw [h]; exact hr)
    rw [hx]
    simp only [List.insertionSort, List.orderedInsert]
    norm_num [floatVal]
  · have h : findTitles1 (chars "<title>x&gt;y (2 samples, 0.5%)</title>").length
        (chars "<title>x&gt;y (2 samples, 0.5%)</title>")
        = [(chars "x&gt;y", chars "2", chars "0.5")] := by decide
    have h2 : pyFloatRaw (chars "2") = some (2, 0, 0) := by decide
    have h3 : pyFloatRaw (chars "0.5") = some (0, 5, 1) := by decide
    simp only [parse_flamegraph, h, List.filterMap_cons, List.filterMap_nil, h2, h3]
    norm_num [floatVal]

/-! ## Report rendering percentages (claim about §4.4/§4.5 aggregation)

Three renderers are cited.  analyze_flamegraph.py `print_analysis`: the
top-20 table (lines 71-74) prints each sample's artifact-supplied
percentage unchanged, and the category table guards its division —
`(samples / total * 100) if total_samples > 0 else 0` (line 86).
scripts/analyze_flamegraph_simple.py `main`: the top-25 table (lines 86-88)
prints the artifact-supplied percentage, but the category loop (line 109)
computes `samples / total_samples * 100` with no guard.
scripts/extract_flamegraph_hotspots.py `main`: both the top-20 label table
(line 112) and the category table (line 135) divide by the total with no
guard, and only the key-findings block (lines 145-149) guards with
`if total_samples > 0 else 0`.  An unguarded division raises
ZeroDivisionError in Python when the total is 0 — reachable with a
nonempty extraction whose counts are all zero, which passes the
`if not hotspots` / `if not functions` early returns (the script then
aborts at its first division; each loop is modelled with the rows it would
compute).  Sorting is by count descending (Python's stable sort, modelled
by a stable insertion sort). -/

/-- analyze_flamegraph.py line 83: categories sorted by samples descending. -/
def af_sorted_cats (fs : List AFEntry) : List (String × ℚ × List AFEntry) :=
  (categorize_functions fs).insertionSort fun a b => b.2.1 ≤ a.2.1

/-- analyze_flamegraph.py lines 85-87: the (category, percentage) rows of
the subsystem breakdown, the percentage guarded by `total_samples > 0`. -/
def af_category_rows (fs : List AFEntry) : List (String × ℚ) :=
  (af_sorted_cats fs).map fun p =>
    (p.1, if 0 < totalAF fs then p.2.1 / totalAF fs * 100 else 0)

/-- analyze_flamegraph.py lines 64-74: the top-20 table rows — name,
samples and the artifact-supplied percentage, printed unchanged. -/
def af_top_rows (fs : List AFEntry) : List (List Char × ℚ × ℚ) :=
  ((fs.insertionSort fun a b => b.samples ≤ a.samples).take 20).map fun e =>
    (e.name, e.samples, e.pct)

/-- analyze_flamegraph_simple.py lines 86-88: the top-25 table rows —
name, samples and the artifact-supplied percentage, printed unchanged. -/
def simple_top_rows (hs : List Hotspot) : List (List Char × ℕ × ℚ) :=
  (hs.take 25).map fun h => (h.name, h.samples, h.percentage)

/-- analyze_flamegraph_simple.py line 103: categories sorted by samples
descending. -/
def simple_sorted_cats (hs : List Hotspot) : List (String × ℕ) :=
  (simple_categories hs).insertionSort fun a b => b.2 ≤ a.2

/-- The category loop of analyze_flamegraph_simple.py lines 108-111: each
row divides by the grand total with no guard — integer division by a zero
total raises ZeroDivisionError at the first row. -/
def rowsAux (total : ℕ) : List (String × ℕ) → Except String (List (String × ℚ))
  | [] => Except.ok []
  | p :: t =>
    if total = 0 then Except.error "ZeroDivisionError"
    else
      match rowsAux total t with
      | Except.ok rs => Except.ok ((p.1, (p.2 : ℚ) / (total : ℚ) * 100) :: rs)
      | Except.error e => Except.error e

/-- The (category, percentage) rows analyze_flamegraph_simple.py renders:
nothing when the extraction is empty (the `if not hotspots` early return),
otherwise the unguarded category loop. -/
def simple_category_rows (hs : List Hotspot) : Except String (List (String × ℚ)) :=
  if hs.isEmpty then Except.ok []
  else rowsAux (totalSimple hs) (simple_sorted_cats hs)

/-- extract_flamegraph_hotspots.py line 101: the grand total (float sums
in the source, exact rationals here). -/
def eh_total (gs : List (List Char × ℚ)) : ℚ := (gs.map (·.2)).sum

/-- An unguarded percentage loop of extract_flamegraph_hotspots.py
(lines 111-113 over labels, lines 134-137 over categories): each row
divides by the grand total with no guard, raising ZeroDivisionError at the
first row when the total is 0. -/
def ehRowsAux {κ : Type} (total : ℚ) : List (κ × ℚ) → Except String (List (κ × ℚ))
  | [] => Except.ok []
  | p :: t =>
    if total = 0 then Except.error "ZeroDivisionError"
    else
      match ehRowsAux total t with
      | Except.ok rs => Except.ok ((p.1, p.2 / total * 100) :: rs)
      | Except.error e => Except.error e

/-- extract_flamegraph_hotspots.py lines 105-113: the top-20 label table —
nothing when the extraction is empty (the `if not functions` early
return), otherwise each of the first 20 samples with its computed
percentage. -/
def eh_top_rows (gs : List (List Char × ℚ)) : Except String (List (List Char × ℚ)) :=
  if gs.isEmpty then Except.ok [] else ehRowsAux (eh_total gs) (gs.take 20)

/-- extract_flamegraph_hotspots.py lines 121-124: the `defaultdict(int)`
accumulation `categories[categorize_function(name)] += samples`. -/
def eh_categories (gs : List (List Char × ℚ)) : List (String × ℚ) :=
  gs.foldl (fun acc e => bucketAdd (· + ·) acc (categorize_function e.1) e.2) []

/-- extract_flamegraph_hotspots.py lines 127-131: categories sorted by
samples descending. -/
def eh_sorted_cats (gs : List (List Char × ℚ)) : List (String × ℚ) :=
  (eh_categories gs).insertionSort fun a b => b.2 ≤ a.2

/-- extract_flamegraph_hotspots.py lines 134-137: the category table, each
row dividing by the grand total with no guard. -/
def eh_category_rows (gs : List (List Char × ℚ)) : Except String (List (String × ℚ)) :=
  if gs.isEmpty then Except.ok [] else ehRowsAux (eh_total gs) (eh_sorted_cats gs)

/-- The guarded percentage of the key-findings block,
extract_flamegraph_hotspots.py lines 145-149:
`(categories.get(...) / total_samples * 100) if total_samples > 0 else 0`. -/
def eh_guarded_pct (samples total : ℚ) : ℚ :=
  if 0 < total then samples / total * 100 else 0

/-- With a nonzero total the unguarded loop never raises and produces the
percentage formula rows. -/
theorem rowsAux_pos (total : ℕ) (hne : total ≠ 0) :
    ∀ l : List (String × ℕ),
      rowsAux total l = Except.ok (l.map fun p => (p.1, (p.2 : ℚ) / (total : ℚ) * 100)) := by
  intro l
  induction l with
  | nil => rfl
  | cons p t ih => simp [rowsAux, hne, ih]

/-- With a nonzero total the unguarded rational loop never raises and
produces the percentage formula rows. -/
theorem ehRowsAux_pos {κ : Type} (total : ℚ) (hne : total ≠ 0) :
    ∀ l : List (κ × ℚ),
      ehRowsAux total l = Except.ok (l.map fun p => (p.1, p.2 / total * 100)) := by
  intro l
  induction l with
  | nil => rfl
  | cons p t ih => simp [ehRowsAux, hne, ih]

/-- With a zero total the unguarded rational loop raises at its first row. -/
theorem ehRowsAux_zero_cons {κ : Type} (p : κ × ℚ) (l : List (κ × ℚ)) :
    ehRowsAux 0 (p :: l) = Except.error "ZeroDivisionError" := by
  simp [ehRowsAux]

/-- A bucket update never returns the empty association list. -/
theorem bucketAdd_ne_nil {α : Type} (comb : α → α → α) (l : List (String × α))
    (c : String) (v : α) : bucketAdd comb l c v ≠ [] := by
  cases l with
  | nil => simp [bucketAdd]
  | cons hd tl =>
    obtain ⟨c0, v0⟩ := hd
    simp only [bucketAdd]
    split <;> simp

/-- Folding bucket updates over a nonempty list gives a nonempty
association list. -/
theorem foldl_bucketAdd_ne_nil {α β : Type} (comb : α → α → α) (key : β → String)
    (val : β → α) :
    ∀ (l : List β) (acc : List (String × α)), acc ≠ [] ∨ l ≠ [] →
      l.foldl (fun a e => bucketAdd comb a (key e) (val e)) acc ≠ [] := by
  intro l
  induction l with
  | nil =>
    intro acc h
    rcases h with h | h
    · simpa using h
    · simp at h
  | cons e t ih =>
    intro acc _
    rw [List.foldl_cons]
    exact ih (bucketAdd comb acc (key e) (val e)) (Or.inl (bucketAdd_ne_nil comb acc (key e) (val e)))

/-- C4 amended: every rendered aggregate whose percentage is computed gets
bucket total / grand total * 100 under a positive grand total — the
category tables of all three scripts and the top-label table of
extract_flamegraph_hotspots.py; the top-label tables of
analyze_flamegraph.py and analyze_flamegraph_simple.py print the
artifact-supplied per-sample percentage unchanged, with no division.  When
the grand total is 0, only analyze_flamegraph.py's category table and
extract_flamegraph_hotspots.py's key-findings block define the percentage
as 0: the category table of analyze_flamegraph_simple.py and the top-label
and category tables of extract_flamegraph_hotspots.py divide unguarded and
raise ZeroDivisionError on a nonempty all-zero sample set that reaches
rendering. -/
theorem C4_percentage_rendering (fs : List AFEntry) (hs : List Hotspot)
    (gs : List (List Char × ℚ)) :
    (totalAF fs = 0 → ∀ r ∈ af_category_rows fs, r.2 = 0)
    ∧ (0 < totalAF fs →
        af_category_rows fs
          = (af_sorted_cats fs).map fun p => (p.1, p.2.1 / totalAF fs * 100))
    ∧ (∀ r ∈ af_top_rows fs, ∃ e ∈ fs, r = (e.name, e.samples, e.pct))
    ∧ (∀ r ∈ simple_top_rows hs, ∃ h ∈ hs, r = (h.name, h.samples, h.percentage))
    ∧ (0 < totalSimple hs →
        simple_category_rows hs
          = Except.ok ((simple_sorted_cats hs).map fun p =>
              (p.1, (p.2 : ℚ) / (totalSimple hs : ℚ) * 100)))
    ∧ (hs ≠ [] → totalSimple hs = 0 →
        simple_category_rows hs = Except.error "ZeroDivisionError")
    ∧ (0 < eh_total gs →
        eh_top_rows gs
          = Except.ok ((gs.take 20).map fun p => (p.1, p.2 / eh_total gs * 100))
        ∧ eh_category_rows gs
          = Except.ok ((eh_sorted_cats gs).map fun p => (p.1, p.2 / eh_total gs * 100)))
    ∧ (gs ≠ [] → eh_total gs = 0 →
        eh_top_rows gs = Except.error "ZeroDivisionError"
        ∧ eh_category_rows gs = Except.error "ZeroDivisionError")
    ∧ (∀ s : ℚ, eh_guarded_pct s 0 = 0) := by
  refine ⟨?_, ?_, ?_, ?_, ?_, ?_, ?_, ?_, ?_⟩
  · intro h0 r hr
    simp only [af_category_rows, List.mem_map] at hr
    obtain ⟨p, _, hpr⟩ := hr
    rw [h0] at hpr
    simp only [lt_irrefl, if_false] at hpr
    rw [← hpr]
  · intro h
    simp [af_category_rows, h]
  · intro r hr
    simp only [af_top_rows, List.mem_map] at hr
    obtain ⟨e, he, hre⟩ := hr
    have he2 : e ∈ fs :=
      ((List.perm_insertionSort _ fs).mem_iff).mp (List.take_subset 20 _ he)
    exact ⟨e, he2, hre.symm⟩
  · intro r hr
    simp only [simple_top_rows, List.mem_map] at hr
    obtain ⟨h, hh, hrh⟩ := hr
    exact ⟨h, List.take_subset 25 hs hh, hrh.symm⟩
  · intro h
    have hne : hs.isEmpty = false := by
      cases hs with
      | nil => simp [totalSimple] at h
      | cons a t => rfl
    rw [simple_category_rows, hne]
    simp only [Bool.false_eq_true, if_false]
    exact rowsAux_pos (totalSimple hs) (Nat.pos_iff_ne_zero.mp h) (simple_sorted_cats hs)
  · intro hne h0
    have hcat : simple_categories hs ≠ [] := by
      apply foldl_bucketAdd_ne_nil
      exact Or.inr hne
    have hsorted : simple_sorted_cats hs ≠ [] := by
      intro hcontra
      have hperm := List.perm_insertionSort
        (fun (a b : String × ℕ) => b.2 ≤ a.2) (simple_categories hs)
      rw [simple_sorted_cats] at hcontra
      rw [hcontra] at hperm
      exact hcat hperm.symm.eq_nil
    obtain ⟨q, ql, hq⟩ := List.exists_cons_of_ne_nil hsorted
    have hisempty : hs.isEmpty = false := by
      cases hs with
      | nil => exact absurd rfl hne
      | cons a t => rfl
    rw [simple_category_rows, hisempty]
    simp only [Bool.false_eq_true, if_false]
    rw [hq, rowsAux, if_pos h0]
  · intro h
    cases gs with
    | nil => simp [eh_total] at h
    | cons g t =>
      constructor
      · rw [eh_top_rows]
        simp only [List.isEmpty_cons, Bool.false_eq_true, if_false]
        exact ehRowsAux_pos (eh_total (g :: t)) h.ne' ((g :: t).take 20)
      · rw [eh_category_rows]
        simp only [List.isEmpty_cons, Bool.false_eq_true, if_false]
        exact ehRowsAux_pos (eh_total (g :: t)) h.ne' (eh_sorted_cats (g :: t))
  · intro hne h0
    have hcat : eh_categories gs ≠ [] := by
      apply foldl_bucketAdd_ne_nil
      exact Or.inr hne
    have hsorted : eh_sorted_cats gs ≠ [] := by
      intro hcontra
      have hperm := List.perm_insertionSort
        (fun (a b : String × ℚ) => b.2 ≤ a.2) (eh_categories gs)
      rw [eh_sorted_cats] at hcontra
      rw [hcontra] at hperm
      exact hcat hperm.symm.eq_nil
    obtain ⟨q, ql, hq⟩ := List.exists_cons_of_ne_nil hsorted
    cases gs with
    | nil => exact absurd rfl hne
    | cons g t =>
      constructor
      · rw [eh_top_rows]
        simp only [List.isEmpty_cons, Bool.false_eq_true, if_false]
        rw [h0]
        rw [show (g :: t).take 20 = g :: t.take 19 from rfl]
        exact ehRowsAux_zero_cons g (t.take 19)
      · rw [eh_category_rows]
        simp only [List.isEmpty_cons, Bool.false_eq_true, if_false]
        rw [h0, hq]
        exact ehRowsAux_zero_cons q ql
  · intro s
    simp [eh_guarded_pct]

/-- C4 counterexample: a single extracted sample with zero count reaches
rendering (the list is nonempty), the grand total is 0, and the unguarded
loops raise ZeroDivisionError instead of rendering the percentage 0 the
claim defines — in analyze_flamegraph_simple.py's category table and in
both percentage tables of extract_flamegraph_hotspots.py. -/
theorem C4_counterexample :
    simple_category_rows [⟨chars "f", 0, 0⟩] = Except.error "ZeroDivisionError"
    ∧ simple_category_rows [⟨chars "f", 0, 0⟩]
        ≠ Except.ok [(("Other" : String), (0 : ℚ))]
    ∧ eh_top_rows [(chars "f", 0)] = Except.error "ZeroDivisionError"
    ∧ eh_category_rows [(chars "f", 0)] = Except.error "ZeroDivisionError" := by
  have h : simple_category_rows [⟨chars "f", 0, 0⟩] = Except.error "ZeroDivisionError" := by
    have hc : simple_sorted_cats [⟨chars "f", 0, 0⟩] = [("Other", 0)] := by decide
    rw [simple_category_rows]
    simp only [List.isEmpty_cons, Bool.false_eq_true, if_false]
    rw [hc, rowsAux]
    simp [totalSimple]
  have h0 : eh_total [(chars "f", 0)] = 0 := by simp [eh_total]
  refine ⟨h, ?_, ?_, ?_⟩
  · rw [h]
    intro hcon
    exact Except.noConfusion hcon
  · rw [eh_top_rows]
    simp only [List.isEmpty_cons, Bool.false_eq_true, if_false]
    rw [h0]
    rw [show ([((chars "f" : List Char), (0 : ℚ))].take 20)
      = [((chars "f" : List Char), (0 : ℚ))] from rfl]
    exact ehRowsAux_zero_cons _ _
  · have hc : eh_sorted_cats [(chars "f", 0)] = [("Other", 0)] := by decide
    rw [eh_category_rows]
    simp only [List.isEmpty_cons, Bool.false_eq_true, if_false]
    rw [h0, hc]
    exact ehRowsAux_zero_cons _ _
